import Mathlib

/-!
# PyResistESDevice — verification of `pyresistesdevice/device.py`

Shallow embedding of the frame codec, configuration encoder, acknowledgement
verifier and measurement-frame validator of `ResistESDevice`, together with
theorems settling the specification claims.

Bytes coming from the link are modelled as `ℕ` (values 0..255); Python's
arbitrary-precision ints are `ℤ` where sign matters and `ℕ` where the source
only ever produces non-negative values; Python floats are modelled as `ℚ`
(all the constants involved are exact decimals and the comparisons proved
here are far from any rounding boundary).  Python's `x & m` for a contiguous
bit mask `m` is written with `%` and `/` (for `x : ℤ` this is `Int.emod`,
matching Python's two's-complement semantics of `&` on negative ints).
-/

namespace PyResistES

/-- Class constant `MEASUREFRAME_MINLENGTH = 14`. -/
def MEASUREFRAME_MINLENGTH : ℕ := 14

/-- Class constant `POTENTIALVALUE_LENGTH = 4`. -/
def POTENTIALVALUE_LENGTH : ℕ := 4

/-- Class constant `CONFIGFRAME_LENGTH = 10`. -/
def CONFIGFRAME_LENGTH : ℕ := 10

/-- Class constant `UX_MAX = 255`. -/
def UX_MAX : ℤ := 255

/-- Class constant `FX_MAX = 33554431`. -/
def FX_MAX : ℤ := 33554431

/-- Class constant `IX_MAX = 127`. -/
def IX_MAX : ℤ := 127

/-- Class constant `TX_MAX = 16383`. -/
def TX_MAX : ℤ := 16383

/-- Class constant `INJVOLT_MIN = 16.55`. -/
def INJVOLT_MIN : ℚ := 16.55

/-- Class constant `INJVOLT_MAX = 196.51`. -/
def INJVOLT_MAX : ℚ := 196.51

/-- Class constant `INJFREQ_MIN = 0`. -/
def INJFREQ_MIN : ℚ := 0

/-- Class constant `INJFREQ_MAX = 62499`. -/
def INJFREQ_MAX : ℚ := 62499

/-- Class constant `RI = 110`. -/
def RI : ℚ := 110

/-- Source `_isbit7valueat1(byte)`: `(byte & 0x80) == 0x80`. -/
def isbit7valueat1 (byte : ℕ) : Bool := byte &&& 0x80 == 0x80

/-- Source `_isbit7valueat0(byte)`: `(byte & 0x80) == 0x00`. -/
def isbit7valueat0 (byte : ℕ) : Bool := byte &&& 0x80 == 0x00

/-- Source `_ismeasureframevalid(measureframe)`: length check (empty, then exact
required length `MEASUREFRAME_MINLENGTH + channels_nb*2*POTENTIALVALUE_LENGTH`),
then the chain of per-byte tag-bit checks exactly as in the source, the
per-channel checks at offsets `MEASUREFRAME_MINLENGTH + i*4 + j`.  The Python
early-`return False` chain is an `&&` chain here. -/
def ismeasureframevalid (channels_nb : ℕ) (measureframe : List ℕ) : Bool :=
  if measureframe.length = 0 then false
  else if measureframe.length ≠ MEASUREFRAME_MINLENGTH + channels_nb * 2 * POTENTIALVALUE_LENGTH
    then false
  else
    isbit7valueat1 (measureframe.getD 0 0) &&
    isbit7valueat1 (measureframe.getD 1 0) &&
    isbit7valueat1 (measureframe.getD 2 0) &&
    isbit7valueat0 (measureframe.getD 3 0) &&
    isbit7valueat1 (measureframe.getD 4 0) &&
    isbit7valueat0 (measureframe.getD 5 0) &&
    isbit7valueat1 (measureframe.getD 6 0) &&
    isbit7valueat0 (measureframe.getD 7 0) &&
    isbit7valueat0 (measureframe.getD 8 0) &&
    isbit7valueat0 (measureframe.getD 9 0) &&
    isbit7valueat1 (measureframe.getD 10 0) &&
    isbit7valueat0 (measureframe.getD 11 0) &&
    isbit7valueat0 (measureframe.getD 12 0) &&
    isbit7valueat0 (measureframe.getD 13 0) &&
    (List.range channels_nb).all (fun i =>
      isbit7valueat1 (measureframe.getD (MEASUREFRAME_MINLENGTH + i*4) 0) &&
      isbit7valueat0 (measureframe.getD (MEASUREFRAME_MINLENGTH + i*4+1) 0) &&
      isbit7valueat0 (measureframe.getD (MEASUREFRAME_MINLENGTH + i*4+2) 0) &&
      isbit7valueat0 (measureframe.getD (MEASUREFRAME_MINLENGTH + i*4+3) 0) &&
      isbit7valueat1 (measureframe.getD (MEASUREFRAME_MINLENGTH + i*4+4) 0) &&
      isbit7valueat0 (measureframe.getD (MEASUREFRAME_MINLENGTH + i*4+5) 0) &&
      isbit7valueat0 (measureframe.getD (MEASUREFRAME_MINLENGTH + i*4+6) 0) &&
      isbit7valueat0 (measureframe.getD (MEASUREFRAME_MINLENGTH + i*4+7) 0))

/-- The unsigned 28-bit read that `_from_measureframe` performs inline at four
places: `(mf[k] & 0x7F) + ((mf[k+1] & 0x7F) << 7) + ((mf[k+2] & 0x7F) << 14)
+ ((mf[k+3] & 0x7F) << 21)`. -/
def word28 (mf : List ℕ) (k : ℕ) : ℕ :=
  (mf.getD k 0 &&& 0x7F) + ((mf.getD (k+1) 0 &&& 0x7F) <<< 7) +
  ((mf.getD (k+2) 0 &&& 0x7F) <<< 14) + ((mf.getD (k+3) 0 &&& 0x7F) <<< 21)

/-- The sign correction `_from_measureframe` applies inline after each 28-bit
read: `if (x > pow(2,27)): x -= pow(2,28)`. -/
def signcorrect (raw : ℕ) : ℤ :=
  if (2:ℕ)^27 < raw then (raw : ℤ) - 2^28 else (raw : ℤ)

/-- The tuple returned by `_from_measureframe`, with the source's variable
names as field names. -/
structure RawMeasures where
  result : Bool
  count : ℕ
  recbatvoltage : ℕ
  embatvoltage : ℕ
  phasecurrent : ℤ
  quadcurrent : ℤ
  phasevoltagearray : List ℤ
  quadvoltagearray : List ℤ
  deriving Repr, DecidableEq

/-- Source `_from_measureframe(measureframe)`: the guard on `_ismeasureframevalid`,
then the field extraction exactly as in the source.  Note the source reads the
per-channel fields at offsets `MEASUREFRAME_MINLENGTH + i*2 + j` (phase) and
`MEASUREFRAME_MINLENGTH + i*2 + 4 + j` (quadrature). -/
def from_measureframe (channels_nb : ℕ) (measureframe : List ℕ) : RawMeasures :=
  if ¬ ismeasureframevalid channels_nb measureframe then
    ⟨false, 0, 0, 0, 0, 0, [], []⟩
  else
    let count := (measureframe.getD 0 0 &&& 0x7F) + ((measureframe.getD 1 0 &&& 0x7F) <<< 7)
    let recbatvoltage := (measureframe.getD 2 0 &&& 0x7F) + ((measureframe.getD 3 0 &&& 0x7F) <<< 7)
    let embatvoltage := (measureframe.getD 4 0 &&& 0x7F) + ((measureframe.getD 5 0 &&& 0x7F) <<< 7)
    let phasecurrent := signcorrect (word28 measureframe 6)
    let quadcurrent := signcorrect (word28 measureframe 10)
    let phasevoltagearray := (List.range channels_nb).map
      (fun i => signcorrect (word28 measureframe (MEASUREFRAME_MINLENGTH + i*2)))
    let quadvoltagearray := (List.range channels_nb).map
      (fun i => signcorrect (word28 measureframe (MEASUREFRAME_MINLENGTH + i*2+4)))
    ⟨true, count, recbatvoltage, embatvoltage, phasecurrent, quadcurrent,
      phasevoltagearray, quadvoltagearray⟩

/-- Source `_to_configframe(voltage, frequency, impuls_nb, channels_nb, integration_nb)`.
Floats are `ℚ` and the counts are `ℤ` (Python ints), which models the
`is_float` / `is_integer` type checks; all `BadConfigParamException` raises
collapse to `.error ()`.  Each `& mask` on a contiguous bit range is written
with `Int.emod` / division, matching Python's `&` on (possibly negative)
ints.  Python's `round` is round-half-to-even while `round : ℚ → ℤ` is
round-half-up; none of the values reasoned about below sits on a tie.

The voltage conversion `Ux = round((256*((900/voltage)-0.08-4.5))/50)` and
the frequency conversion `Fx = round(frequency * ((pow(2, 28))/500000))` are
factored out as `Ux_of` / `Fx_of` below. -/
def Ux_of (voltage : ℚ) : ℤ := round ((256*((900/voltage) - 0.08 - 4.5))/50)

/-- See `Ux_of`: the frequency conversion of `_to_configframe`. -/
def Fx_of (frequency : ℚ) : ℤ := round (frequency * ((2:ℚ)^28 / 500000))

/-- See `Ux_of`: `_to_configframe` itself. -/
def to_configframe (voltage frequency : ℚ)
    (impuls_nb channels_nb integration_nb : ℤ) : Except Unit (List ℤ) :=
  if ¬ (voltage ≤ INJVOLT_MAX ∧ INJVOLT_MIN ≤ voltage) then .error ()
  else
    let Ux : ℤ := Ux_of voltage
    if UX_MAX < Ux then .error ()
    else if ¬ (frequency ≤ INJFREQ_MAX ∧ INJFREQ_MIN ≤ frequency) then .error ()
    else
      let Fx : ℤ := Fx_of frequency
      if FX_MAX < Fx then .error ()
      else if IX_MAX < impuls_nb then .error ()
      else if UX_MAX < channels_nb then .error ()
      else if TX_MAX < integration_nb then .error ()
      else .ok
        [0x81 + (Ux.emod 64) * 2,              -- 0x81 + ((Ux&0x003F)<<1)
         (Ux.emod 256) / 64,                   -- ((Ux&0x00C0)>>6)
         Fx.emod 128,                          -- Fx&0x0000007F
         (Fx.emod 16384) / 128,                -- (Fx&0x00003F80)>>7
         (Fx.emod 2097152) / 16384,            -- (Fx&0x001FC000)>>14
         (Fx.emod 268435456) / 2097152,        -- (Fx&0x0FE00000)>>21
         impuls_nb.emod 128,                   -- impuls_nb&0x7F
         channels_nb.emod 128,                 -- channels_nb&0x7F
         integration_nb.emod 128,              -- integration_nb&0x007F
         (integration_nb.emod 16384) / 128]    -- (integration_nb&0x3F80)>>7

/-- Source `_verifconfigack(ackframe, configframe)`: length check, byte-for-byte
comparison over `configframe`'s length (the source's first-mismatch early
return is the `all` here), then the trailing-byte decode
`run = ackframe[-1] & 0x01`, `boardid = (ackframe[-1] & 0x7E) >> 1`. -/
def verifconfigack (ackframe configframe : List ℤ) : Bool × ℤ × ℤ :=
  if ackframe.length ≠ configframe.length + 1 then (false, 0, 0)
  else if (List.range configframe.length).all
      (fun l => ackframe.getD l 0 == configframe.getD l 0) then
    let last := ackframe.getD (ackframe.length - 1) 0    -- ackframe[-1]
    (true, last.emod 2,           -- ackframe[-1] & 0x01
      (last.emod 128) / 2)        -- (ackframe[-1] & 0x7E) >> 1
  else (false, 0, 0)

/-- The five configuration fields stored on the session object
(`self.voltage`, ..., `self.integration_nb`). -/
structure SessionConfig where
  voltage : ℚ
  frequency : ℚ
  impuls_nb : ℤ
  channels_nb : ℤ
  integration_nb : ℤ
  deriving Repr, DecidableEq

/-- Outcome of `setconfig`: success with the updated session state and the
decoded `(run, boardid)`, or one of the two exceptions; the exception
constructors carry the (unchanged) session state. -/
inductive SetconfigResult
  | ok (st : SessionConfig) (run boardid : ℤ)
  | badConfigParam (st : SessionConfig)
  | badAck (st : SessionConfig)
  deriving Repr, DecidableEq

/-- Source `setconfig(...)` with the link abstracted: `ackframe` is what
`self.receive(CONFIGRESPFRAME_LENGTH)` returned.  On a `BadConfigParamException`
from `_to_configframe` or a failed `_verifconfigack` the session fields are
not assigned, so the error outcomes carry the original state. -/
def setconfig (st : SessionConfig) (voltage frequency : ℚ)
    (impuls_nb channels_nb integration_nb : ℤ) (ackframe : List ℤ) : SetconfigResult :=
  match to_configframe voltage frequency impuls_nb channels_nb integration_nb with
  | .error _ => .badConfigParam st
  | .ok configframe =>
    let r := verifconfigack ackframe configframe
    if r.1 = true then
      .ok ⟨voltage, frequency, impuls_nb, channels_nb, integration_nb⟩ r.2.1 r.2.2
    else .badAck st

/-- Source `tocurrentrealvalue(currentcodedvalue)`:
`(currentcodedvalue*5000000)/(RI*pow(2, 28))`. -/
def tocurrentrealvalue (currentcodedvalue : ℚ) : ℚ :=
  (currentcodedvalue * 5000000) / (RI * 2^28)

/-- Source `topotentialrealvalue(potentialcodedvalue)`:
`(potentialcodedvalue*5000)/pow(2, 28)`. -/
def topotentialrealvalue (potentialcodedvalue : ℚ) : ℚ :=
  (potentialcodedvalue * 5000) / 2^28

/-- Source `toresistivityvalue(...)`: both quotients share the denominator
`pow(phasecurrentscalarvalue,2) + pow(quadcurrentscalarvalue,2)`; when it is
zero Python's float division raises `ZeroDivisionError`, modelled as
`.error ()`. -/
def toresistivityvalue (phasecurrentscalarvalue quadcurrentscalarvalue
    phasepotentialscalarvalue quadpotentialscalarvalue : ℚ) : Except Unit (ℚ × ℚ) :=
  if phasecurrentscalarvalue^2 + quadcurrentscalarvalue^2 = 0 then .error ()
  else .ok
    (1000*((phasepotentialscalarvalue*phasecurrentscalarvalue) +
        (quadpotentialscalarvalue*quadcurrentscalarvalue)) /
      (phasecurrentscalarvalue^2 + quadcurrentscalarvalue^2),
     1000*((quadpotentialscalarvalue*phasecurrentscalarvalue) -
        (phasepotentialscalarvalue*quadcurrentscalarvalue)) /
      (phasecurrentscalarvalue^2 + quadcurrentscalarvalue^2))

/-- Class attribute `COMMONFIELDS_LIST`. -/
def COMMONFIELDS_LIST : List String :=
  ["count", "rec. batt. voltage(V)", "em. batt. voltage(V)",
   "phase current(mA)", "quad. current(mA)"]

/-- Class attribute `POTENTIALFIELDS_LIST`: two `%d` format strings, modelled
as functions of the channel index they are applied to. -/
def POTENTIALFIELDS_LIST : List (ℕ → String) :=
  [fun i => "phase potential(mV) (ch" ++ toString i ++ ")",
   fun i => "quad. potential(mV) (ch" ++ toString i ++ ")"]

/-- Class attribute `RESISTIVITYFIELDS_LIST`: two `%d` format strings. -/
def RESISTIVITYFIELDS_LIST : List (ℕ → String) :=
  [fun i => "phase resistivity(kOhm.m) (ch" ++ toString i ++ ")",
   fun i => "quad. resistivity(kOhm.m) (ch" ++ toString i ++ ")"]

/-- Source `getallfieldnames()`.  In the source `fieldnames = self.COMMONFIELDS_LIST`
binds the class-attribute list object itself, so the `append` calls mutate the
shared class state and the returned list *is* that object.  The shared list is
therefore an explicit argument here, and the returned list is also its new
value after the call. -/
def getallfieldnames (channels_nb : ℕ) (commonfields : List String) : List String :=
  commonfields ++ (List.range channels_nb).flatMap (fun i =>
    POTENTIALFIELDS_LIST.map (fun f => f i) ++ RESISTIVITYFIELDS_LIST.map (fun f => f i))

/-- The header row built at the top of `acquiremeasures` in the
`datetimedisplay == False` branch, where `csvline = self.COMMONFIELDS_LIST`
aliases the shared class attribute exactly as in `getallfieldnames`; the
second inner loop runs over `range(len(POTENTIALFIELDS_LIST))` but indexes
`RESISTIVITYFIELDS_LIST`, as in the source. -/
def acquiremeasuresHeader (channels_nb : ℕ) (commonfields : List String) : List String :=
  commonfields ++ (List.range channels_nb).flatMap (fun n =>
    (List.range POTENTIALFIELDS_LIST.length).map
      (fun i => (POTENTIALFIELDS_LIST.getD i (fun _ => "")) n) ++
    (List.range POTENTIALFIELDS_LIST.length).map
      (fun i => (RESISTIVITYFIELDS_LIST.getD i (fun _ => "")) n))

/-- Source `updatereceptionframe`: every byte read from the link is appended to
`self.recframe` (the `len(bytes) > 0` guard only skips an empty loop). -/
def updatereceptionframe (recframe : List ℕ) (bytes : List ℕ) : List ℕ :=
  recframe ++ bytes

/-- Source `getrawmeasures()`: decodes `self.recframe` and clears it
(`self.recframe.clear()`) exactly when the decode succeeded.  Returns the
decoded measures together with the buffer contents after the call. -/
def getrawmeasures (channels_nb : ℕ) (recframe : List ℕ) : RawMeasures × List ℕ :=
  let m := from_measureframe channels_nb recframe
  if m.result then (m, []) else (m, recframe)

/-! ## Specification-side definitions

These follow the wording of the spec / claims (not the source), for the
refinement comparisons. -/

/-- Bit 7 of a byte, as the claims word it. -/
def bit7set (b : ℕ) : Bool := b.testBit 7

/-- Claim C2's tag-1 positions, as stated: bytes `{0,2,4,6,10}` and the first
byte of each per-channel 4-byte field, at offsets `14+8·i` and `14+8·i+4` for
`i < c`. -/
def claimTag1C2 (c k : ℕ) : Bool :=
  k ∈ ([0,2,4,6,10] : List ℕ) ||
    (List.range c).any (fun i => k == 14+8*i || k == 14+8*i+4)

/-- Claim C2's validity predicate, as stated, over a frame of the required
length `14+8·c`: tag-1 positions have bit 7 = 1 and every other byte has
bit 7 = 0. -/
def specValidC2claim (c : ℕ) (mf : List ℕ) : Bool :=
  (List.range (14+8*c)).all (fun k =>
    if claimTag1C2 c k then bit7set (mf.getD k 0) else ! bit7set (mf.getD k 0))

/-- Amended C2 tag-1 positions: bytes `{0,1,2,4,6,10}` and offsets `14+4·i`
and `14+4·i+4` for `i < c`. -/
def amendTag1C2 (c k : ℕ) : Bool :=
  k ∈ ([0,1,2,4,6,10] : List ℕ) ||
    (List.range c).any (fun i => k == 14+i*4 || k == 14+i*4+4)

/-- Amended C2 tag-0 positions: bytes `{3,5,7,8,9,11,12,13}` and offsets
`14+4·i+j` for `i < c`, `j ∈ {1,2,3,5,6,7}`. -/
def amendTag0C2 (c k : ℕ) : Bool :=
  k ∈ ([3,5,7,8,9,11,12,13] : List ℕ) ||
    (List.range c).any (fun i =>
      k == 14+i*4+1 || k == 14+i*4+2 || k == 14+i*4+3 ||
      k == 14+i*4+5 || k == 14+i*4+6 || k == 14+i*4+7)

/-- Amended C2 validity predicate: every tag-1 position has bit 7 = 1 and
every tag-0 position has bit 7 = 0 (positions past `17+4·(c-1)` within the
frame are unconstrained). -/
def specValidC2amended (c : ℕ) (mf : List ℕ) : Bool :=
  (List.range (14+8*c)).all (fun k =>
    (!amendTag1C2 c k || bit7set (mf.getD k 0)) &&
    (!amendTag0C2 c k || !bit7set (mf.getD k 0)))

/-- Claim C3's signed-decode rule, as stated: subtract `2^28` whenever
`raw > 2^27 − 1`. -/
def signedDecodeC3claim (raw : ℕ) : ℤ :=
  if (2:ℕ)^27 - 1 < raw then (raw : ℤ) - 2^28 else (raw : ℤ)

/-- Amended C3 signed-decode rule: subtract `2^28` whenever `raw ≥ 2^27 + 1`,
keep the raw value otherwise. -/
def signedDecodeC3amended (raw : ℕ) : ℤ :=
  if (2:ℕ)^27 + 1 ≤ raw then (raw : ℤ) - 2^28 else (raw : ℤ)

end PyResistES

namespace PyResistES

/-! ## Concrete frames used by the witnesses and counterexamples -/

/-- A structurally valid measurement frame for `channels_nb = 1` (length 22,
all tag bits as the validator requires, zero payload). -/
def goodframe1 : List ℕ :=
  [0x80,0x80,0x80,0,0x80,0,0x80,0,0,0,0x80,0,0,0,0x80,0,0,0,0x80,0,0,0]

/-- A length-22 frame whose byte 1 has bit 7 = 0 and which otherwise carries
exactly the tag pattern claim C2 describes for `channelCount = 1`. -/
def frameByte1low : List ℕ :=
  [0x80,0,0x80,0,0x80,0,0x80,0,0,0,0x80,0,0,0,0x80,0,0,0,0x80,0,0,0]

/-- A length-30 frame (`channels_nb = 2`) that the source validator accepts:
tag 1 at bytes 0,1,2,4,6,10 and at 14, 18, 22 (the validator's stride-4
channel offsets); everything else 0 — in particular byte 26, which claim C2
requires to have bit 7 = 1. -/
def frameStride4 : List ℕ :=
  [0x80,0x80,0x80,0,0x80,0,0x80,0,0,0,0x80,0,0,0,
   0x80,0,0,0,0x80,0,0,0,0x80,0,0,0,0,0,0,0]

/-- A valid `channels_nb = 2` frame with distinct per-channel payload bytes,
used to exhibit the decoder's stride-2 channel offsets. -/
def strideframe2 : List ℕ :=
  [0x80,0x80,0x80,0,0x80,0,0x80,0,0,0,0x80,0,0,0,
   0x85,1,2,3,0x86,4,5,6,0x87,7,8,9,0x88,10,11,12]

/-- A valid `channels_nb = 1` frame whose phase-current field carries the raw
28-bit code `2^27 + 5` (bytes 6..9 are `0x85, 0, 0, 64`). -/
def negframe1 : List ℕ :=
  [0x80,0x80,0x80,0,0x80,0,0x85,0,0,64,0x80,0,0,0,0x80,0,0,0,0x80,0,0,0]

/-! ## Helper lemmas -/

theorem isbit7valueat1_eq (b : ℕ) : isbit7valueat1 b = b.testBit 7 := by
  have h := Nat.and_two_pow b 7
  norm_num at h
  simp only [isbit7valueat1, show (0x80 : ℕ) = 128 from rfl, h]
  cases b.testBit 7 <;> simp

theorem isbit7valueat0_eq (b : ℕ) : isbit7valueat0 b = ! b.testBit 7 := by
  have h := Nat.and_two_pow b 7
  norm_num at h
  simp only [isbit7valueat0, show (0x80 : ℕ) = 128 from rfl, h]
  cases b.testBit 7 <;> simp

end PyResistES

namespace PyResistES

/-! ## Claim theorems -/

/-- C8 evaluation at the failing input: with both phase and quadrature current equal to
zero — which is exactly what `tocurrentrealvalue` produces from zero raw
codes — `toresistivityvalue` takes the division-by-zero error branch
(Python raises `ZeroDivisionError`) instead of returning a flagged or
non-finite value as the claim requires. -/
theorem C8_div_by_zero_crash :
    tocurrentrealvalue 0 = 0 ∧
    toresistivityvalue (tocurrentrealvalue 0) (tocurrentrealvalue 0) 50 20 = .error () := by
  constructor
  · norm_num [tocurrentrealvalue]
  · norm_num [tocurrentrealvalue, toresistivityvalue]

/-- C9: the reception buffer is append-only (`updatereceptionframe` appends
the bytes read from the link), and `getrawmeasures` clears it exactly when
the frame decode succeeded: on success the buffer is empty afterwards, on a
failed validation it is unchanged. -/
theorem C9_buffer_append_only_clear_iff (channels_nb : ℕ) (recframe bytes : List ℕ) :
    updatereceptionframe recframe bytes = recframe ++ bytes ∧
    ((from_measureframe channels_nb recframe).result = true →
      (getrawmeasures channels_nb recframe).2 = []) ∧
    ((from_measureframe channels_nb recframe).result = false →
      (getrawmeasures channels_nb recframe).2 = recframe) := by
  refine ⟨rfl, ?_, ?_⟩ <;> intro h <;> simp [getrawmeasures, h]

/-- C9 witness: on a concrete valid `channels_nb = 1` frame the buffer is
cleared, and on a concrete invalid buffer it is left unchanged. -/
theorem C9_witness :
    ((from_measureframe 1 goodframe1).result = true ∧
      (getrawmeasures 1 goodframe1).2 = []) ∧
    ((from_measureframe 1 [1,2,3]).result = false ∧
      (getrawmeasures 1 [1,2,3]).2 = [1,2,3]) :=
  ⟨⟨by decide, (C9_buffer_append_only_clear_iff 1 goodframe1 []).2.1 (by decide)⟩,
   ⟨by decide, (C9_buffer_append_only_clear_iff 1 [1,2,3] []).2.2 (by decide)⟩⟩

/-- C10: `getallfieldnames` returns the shared class-level list after
appending `4·channels_nb` names to it, so with the pristine
`COMMONFIELDS_LIST` (5 entries) a first call returns `5 + 4·c` names and an
immediately repeated call (the shared list now being the first call's result)
returns `5 + 8·c` names; the header row of `acquiremeasures` (the
`datetimedisplay == False` branch) performs exactly the same growth of the
shared list. -/
theorem C10_fieldnames_shared_growth (c : ℕ) :
    (getallfieldnames c COMMONFIELDS_LIST).length = 5 + 4*c ∧
    (getallfieldnames c (getallfieldnames c COMMONFIELDS_LIST)).length = 5 + 8*c ∧
    ∀ shared : List String, acquiremeasuresHeader c shared = getallfieldnames c shared := by
  have hlen : ∀ l : List String, (getallfieldnames c l).length = l.length + 4*c := by
    intro l
    have : ((List.range c).flatMap (fun i =>
        POTENTIALFIELDS_LIST.map (fun f => f i) ++
        RESISTIVITYFIELDS_LIST.map (fun f => f i))).length = 4*c := by
      induction c with
      | zero => simp
      | succ n ih =>
        rw [List.range_succ, List.flatMap_append, List.length_append, ih]
        simp [POTENTIALFIELDS_LIST, RESISTIVITYFIELDS_LIST]
        ring
    simp [getallfieldnames, this]
  refine ⟨?_, ?_, ?_⟩
  · rw [hlen]; simp [COMMONFIELDS_LIST]
  · rw [hlen, hlen]; simp [COMMONFIELDS_LIST]; ring
  · intro shared
    simp [acquiremeasuresHeader, getallfieldnames, POTENTIALFIELDS_LIST,
      RESISTIVITYFIELDS_LIST, List.range_succ]

/-- C5: a reception buffer whose length differs from `14 + 8·channels_nb` is
rejected by the validator's length check — whatever its bytes — and
`_from_measureframe` extracts nothing: it returns `result = False` with zero
fields and empty arrays. -/
theorem C5_wrong_length_rejected (channels_nb : ℕ) (recframe : List ℕ)
    (h : recframe.length ≠ 14 + 8 * channels_nb) :
    ismeasureframevalid channels_nb recframe = false ∧
    from_measureframe channels_nb recframe = ⟨false, 0, 0, 0, 0, 0, [], []⟩ := by
  have hreq : MEASUREFRAME_MINLENGTH + channels_nb * 2 * POTENTIALVALUE_LENGTH
      = 14 + 8 * channels_nb := by
    simp [MEASUREFRAME_MINLENGTH, POTENTIALVALUE_LENGTH]; ring
  have hv : ismeasureframevalid channels_nb recframe = false := by
    unfold ismeasureframevalid
    rw [hreq]
    by_cases h0 : recframe.length = 0
    · rw [if_pos h0]
    · rw [if_neg h0, if_pos h]
  exact ⟨hv, by simp [from_measureframe, hv]⟩

/-- C5 witness: a buffer of length 22 (the `channelCount = 1` frame, with all
its tag bits correct) is rejected when the configured channel count is 2. -/
theorem C5_witness :
    goodframe1.length ≠ 14 + 8 * 2 ∧
    ismeasureframevalid 2 goodframe1 = false ∧
    from_measureframe 2 goodframe1 = ⟨false, 0, 0, 0, 0, 0, [], []⟩ :=
  ⟨by decide, (C5_wrong_length_rejected 2 goodframe1 (by decide)).1,
    (C5_wrong_length_rejected 2 goodframe1 (by decide)).2⟩

/-- C3 counterexample: at raw code `2^27` (reachable: field bytes
`0x80, 0, 0, 0x40`) the source's sign correction — which subtracts only when
`raw > 2^27` strictly — returns `+2^27`, whereas the claim's rule
(`raw > 2^27 − 1`) returns `−2^27`. -/
theorem C3_counterexample :
    signcorrect (2^27) = 2^27 ∧
    signedDecodeC3claim (2^27) = -(2^27) ∧
    signcorrect (2^27) ≠ signedDecodeC3claim (2^27) := by
  refine ⟨?_, ?_, ?_⟩ <;> decide

/-- C3 amended: the signed decode equals `raw − 2^28` whenever
`raw ≥ 2^27 + 1` and equals `raw` otherwise; in particular `raw = 2^27`
decodes to `+2^27` and `raw = 2^27 + 5` decodes to `5 − 2^27`, and on a
concrete valid frame whose phase-current field carries `2^27 + 5` the full
frame decode produces exactly `5 − 2^27`. -/
theorem C3_signed_decode_amended :
    (∀ raw : ℕ, signcorrect raw = signedDecodeC3amended raw) ∧
    signcorrect (2^27 + 5) = 5 - 2^27 ∧
    signcorrect (2^27) = 2^27 ∧
    (from_measureframe 1 negframe1).phasecurrent = 5 - 2^27 := by
  refine ⟨?_, by decide, by decide, by decide⟩
  intro raw
  simp [signcorrect, signedDecodeC3amended, Nat.add_one_le_iff]

/-- C1 evaluation at the failing input: on a valid `channels_nb = 2` frame the decoder
reads channel 1's phase-potential field from bytes 16..19 (offset
`14 + 2·i`), not from bytes 22..25 (offset `14 + 8·i`) as the frame layout in
the decoder's own docstring — and the claim — prescribe: the decoded value is
`2 + 3·2^7 + 6·2^14 + 4·2^21`, built from bytes 16,17,18,19 of
`strideframe2`, and differs from `7 + 7·2^7 + 8·2^14 + 9·2^21`, the value the
bytes at 22..25 encode. -/
theorem C1_decoder_stride_bug :
    (from_measureframe 2 strideframe2).result = true ∧
    (from_measureframe 2 strideframe2).phasevoltagearray.getD 1 0
      = 2 + 3*2^7 + 6*2^14 + 4*2^21 ∧
    (2 + 3*2^7 + 6*2^14 + 4*2^21 : ℤ) ≠ 7 + 7*2^7 + 8*2^14 + 9*2^21 := by
  refine ⟨?_, ?_, ?_⟩ <;> decide

end PyResistES

namespace PyResistES

/-- Helper for C6: on the whole physical voltage range the conversion `Ux`
stays at or below 255 (the map is decreasing in the voltage and already
equals 255 at the lower bound 16.55). -/
theorem Ux_of_le_255 (v : ℚ) (h1 : INJVOLT_MIN ≤ v) (h2 : v ≤ INJVOLT_MAX) :
    Ux_of v ≤ 255 := by
  norm_num [INJVOLT_MIN] at h1
  have hv : (0:ℚ) < v := lt_of_lt_of_le (by norm_num) h1
  have h900 : 900 / v ≤ 18000/331 := by
    rw [div_le_div_iff₀ hv (by norm_num)]
    nlinarith
  have hE : (256*((900/v) - 0.08 - 4.5))/50 + 1/2 < ((256:ℤ):ℚ) := by
    push_cast
    nlinarith [h900]
  unfold Ux_of
  rw [round_eq]
  have := Int.floor_lt.mpr hE
  omega

/-- C6 counterexample: the claim is false — there is no voltage inside
`[16.55, 196.51]` whose conversion `Ux` exceeds 255, so the secondary
conversion check can never reject an in-range voltage. -/
theorem C6_counterexample :
    ¬ ∃ v : ℚ, INJVOLT_MIN ≤ v ∧ v ≤ INJVOLT_MAX ∧ 255 < Ux_of v := by
  rintro ⟨v, h1, h2, h3⟩
  exact absurd h3 (not_lt.mpr (Ux_of_le_255 v h1 h2))

/-- C6 amended: for every voltage inside the physical range
`[INJVOLT_MIN, INJVOLT_MAX]` the conversion satisfies `Ux ≤ UX_MAX`, so the
encoder's `Ux > 255` rejection branch is unreachable for in-range voltages
(at the boundary, `Ux(16.55)` rounds to exactly 255). -/
theorem C6_Ux_never_overflows (v : ℚ)
    (h1 : INJVOLT_MIN ≤ v) (h2 : v ≤ INJVOLT_MAX) : Ux_of v ≤ UX_MAX := by
  have := Ux_of_le_255 v h1 h2
  simp only [UX_MAX]
  omega

/-- C6 witness: the boundary voltage 16.55 itself. -/
theorem C6_witness :
    INJVOLT_MIN ≤ (16.55:ℚ) ∧ (16.55:ℚ) ≤ INJVOLT_MAX ∧ Ux_of 16.55 ≤ UX_MAX :=
  ⟨by norm_num [INJVOLT_MIN], by norm_num [INJVOLT_MIN, INJVOLT_MAX],
    C6_Ux_never_overflows 16.55 (by norm_num [INJVOLT_MIN])
      (by norm_num [INJVOLT_MIN, INJVOLT_MAX])⟩

/-- Helper for C7: concrete evaluation of the encoder at all-negative counts
(voltage 16.55 gives `Ux = 255`, frequency `15625/16` kHz gives
`Fx = 524288` exactly). -/
theorem to_configframe_allneg_eval :
    to_configframe 16.55 (15625/16) (-1) (-2) (-3) =
      .ok [255, 3, 0, 0, 32, 0, 127, 126, 125, 127] := by
  have hUx : Ux_of 16.55 = 255 := by rw [Ux_of, round_eq]; norm_num
  have hFx : Fx_of (15625/16) = 524288 := by rw [Fx_of, round_eq]; norm_num
  unfold to_configframe
  rw [hUx, hFx]
  norm_num [INJVOLT_MIN, INJVOLT_MAX, INJFREQ_MIN, INJFREQ_MAX,
    UX_MAX, FX_MAX, IX_MAX, TX_MAX]

/-- C7 counterexample: negative counts are not rejected — with all three of
`impuls_nb`, `channels_nb`, `integration_nb` negative the encoder succeeds
and masks them into the frame (`-1 & 0x7F = 127`, `-2 & 0x7F = 126`,
`-3 & 0x7F = 125`, `(-3 & 0x3F80) >> 7 = 127`). -/
theorem C7_counterexample :
    to_configframe 16.55 (15625/16) (-1) (-2) (-3) =
      .ok [255, 3, 0, 0, 32, 0, 127, 126, 125, 127] :=
  to_configframe_allneg_eval

/-- C7 amended: the encoder raises the configuration-parameter error whenever
`impuls_nb > 127`, `channels_nb > 255` or `integration_nb > 16383` (no frame
is produced), but there is no lower-bound check: negative integer counts are
accepted and masked into the frame bytes. -/
theorem C7_limits_rejected_negatives_accepted :
    (∀ (voltage frequency : ℚ) (impuls_nb channels_nb integration_nb : ℤ),
      IX_MAX < impuls_nb ∨ UX_MAX < channels_nb ∨ TX_MAX < integration_nb →
      to_configframe voltage frequency impuls_nb channels_nb integration_nb
        = .error ()) ∧
    to_configframe 16.55 (15625/16) (-1) (-2) (-3) =
      .ok [255, 3, 0, 0, 32, 0, 127, 126, 125, 127] := by
  constructor
  · intro v f i c t h
    unfold to_configframe
    dsimp only
    split_ifs with h1 h2 h3 h4 h5 h6 h7
    all_goals try rfl
    exfalso
    rcases h with hh|hh|hh
    · exact h5 hh
    · exact h6 hh
    · exact h7 hh
  · exact to_configframe_allneg_eval

/-- C7 witness: `impuls_nb = 128` exceeds `IX_MAX` and is rejected. -/
theorem C7_witness :
    (IX_MAX < (128:ℤ) ∨ UX_MAX < (1:ℤ) ∨ TX_MAX < (1:ℤ)) ∧
    to_configframe 16.55 (15625/16) 128 1 1 = .error () :=
  ⟨Or.inl (by norm_num [IX_MAX]),
    C7_limits_rejected_negatives_accepted.1 16.55 (15625/16) 128 1 1
      (Or.inl (by norm_num [IX_MAX]))⟩

end PyResistES

namespace PyResistES

/-- C4: acknowledgement verification succeeds iff the ack frame has exactly
`configframe.length + 1 = 11` bytes and its first 10 bytes equal the sent
configuration frame byte-for-byte; on success `run` and `boardid` are bit 0
and bits 1..6 of the 11th byte (`ackframe[10]`); an ack equal to the config
frame plus the trailing byte `0x05` yields `(run, boardid) = (1, 2)`; and on
any verification failure `setconfig` raises the acknowledgement error with
the stored session configuration unchanged. -/
theorem C4_ack_verification (configframe ackframe : List ℤ)
    (hlen : configframe.length = 10) :
    ((verifconfigack ackframe configframe).1 = true ↔
      ackframe.length = 11 ∧ ∀ l < 10, ackframe.getD l 0 = configframe.getD l 0) ∧
    ((verifconfigack ackframe configframe).1 = true →
      (verifconfigack ackframe configframe).2.1 = (ackframe.getD 10 0).emod 2 ∧
      (verifconfigack ackframe configframe).2.2 = ((ackframe.getD 10 0).emod 128) / 2) ∧
    verifconfigack (configframe ++ [0x05]) configframe = (true, 1, 2) ∧
    (∀ (st : SessionConfig) (v f : ℚ) (i c t : ℤ),
      to_configframe v f i c t = .ok configframe →
      (verifconfigack ackframe configframe).1 = false →
      setconfig st v f i c t ackframe = .badAck st) := by
  have hallIff : ∀ ack : List ℤ,
      ((List.range 10).all (fun l => ack.getD l 0 == configframe.getD l 0) = true)
        ↔ (∀ l < 10, ack.getD l 0 = configframe.getD l 0) := by
    intro ack
    simp [List.all_eq_true, List.mem_range]
  have hkey : (verifconfigack ackframe configframe).1 = true ↔
      (ackframe.length = 11 ∧ ∀ l < 10, ackframe.getD l 0 = configframe.getD l 0) := by
    unfold verifconfigack
    rw [hlen]
    by_cases hL : ackframe.length = 11
    · rw [if_neg (by omega)]
      split_ifs with hall
    
      · simpa [hL] using (hallIff ackframe).mp hall
      · constructor
        · intro hfalse; simp at hfalse
        · rintro ⟨-, hforall⟩
          exact absurd ((hallIff ackframe).mpr hforall) hall
    · rw [if_pos (by omega)]
      constructor
      · intro hfalse; simp at hfalse
      · rintro ⟨h11, -⟩; exact absurd h11 hL
  refine ⟨hkey, ?_, ?_, ?_⟩
  · intro htrue
    have h11 : ackframe.length = 11 := (hkey.mp htrue).1
    have hforall := (hkey.mp htrue).2
    unfold verifconfigack
    rw [hlen, if_neg (by omega), if_pos ((hallIff ackframe).mpr hforall), h11]
    exact ⟨rfl, rfl⟩
  · unfold verifconfigack
    rw [if_neg (by simp [hlen]), if_pos ?hall]
    case hall =>
      rw [List.all_eq_true]
      intro l hm
      rw [List.mem_range] at hm
      rw [List.getD_append configframe [(5:ℤ)] 0 l (by omega)]
      exact beq_self_eq_true _
    have hlast : (configframe ++ [(5:ℤ)]).getD
        ((configframe ++ [(5:ℤ)]).length - 1) 0 = 5 := by
      rw [List.length_append, hlen, List.getD_append_right _ _ _ _ (by simp [hlen])]
      simp [hlen]
    rw [hlast]
    decide
  · intro st v f i c t hok hfail
    unfold setconfig
    rw [hok]
    simp [hfail]

/-- C4 witness: a concrete 10-byte configuration frame echoed back with the
trailing byte `0x05`. -/
theorem C4_witness :
    (([1,2,3,4,5,6,7,8,9,10] : List ℤ).length = 10) ∧
    verifconfigack (([1,2,3,4,5,6,7,8,9,10] : List ℤ) ++ [0x05])
      [1,2,3,4,5,6,7,8,9,10] = (true, 1, 2) :=
  ⟨rfl, (C4_ack_verification [1,2,3,4,5,6,7,8,9,10]
      ([1,2,3,4,5,6,7,8,9,10] ++ [0x05]) rfl).2.2.1⟩

end PyResistES

namespace PyResistES

/-- Helper for C2: with the length checks discharged, the source validator
accepts exactly when every byte it inspects has the prescribed bit 7 — the
fixed 14-byte header pattern plus, per channel `i`, the eight stride-4
checks at offsets `14 + i*4 + j`. -/
theorem ismeasureframevalid_iff (c : ℕ) (mf : List ℕ)
    (hlen : mf.length = 14 + 8*c) :
    ismeasureframevalid c mf = true ↔
      ((mf.getD 0 0).testBit 7 = true ∧ (mf.getD 1 0).testBit 7 = true ∧
       (mf.getD 2 0).testBit 7 = true ∧ (mf.getD 3 0).testBit 7 = false ∧
       (mf.getD 4 0).testBit 7 = true ∧ (mf.getD 5 0).testBit 7 = false ∧
       (mf.getD 6 0).testBit 7 = true ∧ (mf.getD 7 0).testBit 7 = false ∧
       (mf.getD 8 0).testBit 7 = false ∧ (mf.getD 9 0).testBit 7 = false ∧
       (mf.getD 10 0).testBit 7 = true ∧ (mf.getD 11 0).testBit 7 = false ∧
       (mf.getD 12 0).testBit 7 = false ∧ (mf.getD 13 0).testBit 7 = false ∧
       ∀ i < c,
         (mf.getD (14 + i*4) 0).testBit 7 = true ∧
         (mf.getD (14 + i*4+1) 0).testBit 7 = false ∧
         (mf.getD (14 + i*4+2) 0).testBit 7 = false ∧
         (mf.getD (14 + i*4+3) 0).testBit 7 = false ∧
         (mf.getD (14 + i*4+4) 0).testBit 7 = true ∧
         (mf.getD (14 + i*4+5) 0).testBit 7 = false ∧
         (mf.getD (14 + i*4+6) 0).testBit 7 = false ∧
         (mf.getD (14 + i*4+7) 0).testBit 7 = false) := by
  unfold ismeasureframevalid
  rw [if_neg (by omega),
    if_neg (by simp only [MEASUREFRAME_MINLENGTH, POTENTIALVALUE_LENGTH]; omega)]
  simp only [MEASUREFRAME_MINLENGTH, Bool.and_eq_true, List.all_eq_true,
    List.mem_range, isbit7valueat1_eq, isbit7valueat0_eq, Bool.not_eq_true',
    and_assoc]

/-- Helper for C2: the amended specification pattern accepts exactly the same
canonical byte-wise condition. -/
theorem specValidC2amended_iff (c : ℕ) (mf : List ℕ) :
    specValidC2amended c mf = true ↔
      ((mf.getD 0 0).testBit 7 = true ∧ (mf.getD 1 0).testBit 7 = true ∧
       (mf.getD 2 0).testBit 7 = true ∧ (mf.getD 3 0).testBit 7 = false ∧
       (mf.getD 4 0).testBit 7 = true ∧ (mf.getD 5 0).testBit 7 = false ∧
       (mf.getD 6 0).testBit 7 = true ∧ (mf.getD 7 0).testBit 7 = false ∧
       (mf.getD 8 0).testBit 7 = false ∧ (mf.getD 9 0).testBit 7 = false ∧
       (mf.getD 10 0).testBit 7 = true ∧ (mf.getD 11 0).testBit 7 = false ∧
       (mf.getD 12 0).testBit 7 = false ∧ (mf.getD 13 0).testBit 7 = false ∧
       ∀ i < c,
         (mf.getD (14 + i*4) 0).testBit 7 = true ∧
         (mf.getD (14 + i*4+1) 0).testBit 7 = false ∧
         (mf.getD (14 + i*4+2) 0).testBit 7 = false ∧
         (mf.getD (14 + i*4+3) 0).testBit 7 = false ∧
         (mf.getD (14 + i*4+4) 0).testBit 7 = true ∧
         (mf.getD (14 + i*4+5) 0).testBit 7 = false ∧
         (mf.getD (14 + i*4+6) 0).testBit 7 = false ∧
         (mf.getD (14 + i*4+7) 0).testBit 7 = false) := by
  have hor1 : ∀ a b : Bool, ((!a || b) = true) ↔ (a = true → b = true) := by decide
  have hor0 : ∀ a b : Bool, ((!a || !b) = true) ↔ (a = true → b = false) := by decide
  have htag1 : ∀ k, amendTag1C2 c k = true ↔
      (k = 0 ∨ k = 1 ∨ k = 2 ∨ k = 4 ∨ k = 6 ∨ k = 10 ∨
        ∃ i, i < c ∧ (k = 14+i*4 ∨ k = 14+i*4+4)) := by
    intro k
    simp [amendTag1C2, List.any_eq_true, List.mem_range, or_assoc]
  have htag0 : ∀ k, amendTag0C2 c k = true ↔
      (k = 3 ∨ k = 5 ∨ k = 7 ∨ k = 8 ∨ k = 9 ∨ k = 11 ∨ k = 12 ∨ k = 13 ∨
        ∃ i, i < c ∧ (k = 14+i*4+1 ∨ k = 14+i*4+2 ∨ k = 14+i*4+3 ∨
          k = 14+i*4+5 ∨ k = 14+i*4+6 ∨ k = 14+i*4+7)) := by
    intro k
    simp [amendTag0C2, List.any_eq_true, List.mem_range, or_assoc]
  constructor
  · intro hall
    unfold specValidC2amended at hall
    have hmem : ∀ k, k < 14+8*c →
        (amendTag1C2 c k = true → (mf.getD k 0).testBit 7 = true) ∧
        (amendTag0C2 c k = true → (mf.getD k 0).testBit 7 = false) := by
      intro k hk
      have h := List.all_eq_true.mp hall k (List.mem_range.mpr hk)
      rw [Bool.and_eq_true] at h
      constructor
      · intro ht; simpa [bit7set] using (hor1 _ _).mp h.1 ht
      · intro ht; simpa [bit7set] using (hor0 _ _).mp h.2 ht
    have ht1a : ∀ i, i < c → amendTag1C2 c (14+i*4) = true := by
      intro i hi
      have hx : (List.range c).any
          (fun j => 14+i*4 == 14+j*4 || 14+i*4 == 14+j*4+4) = true := by
        rw [List.any_eq_true]
        exact ⟨i, List.mem_range.mpr hi, by simp⟩
      unfold amendTag1C2
      rw [hx, Bool.or_true]
    have ht1b : ∀ i, i < c → amendTag1C2 c (14+i*4+4) = true := by
      intro i hi
      have hx : (List.range c).any
          (fun j => 14+i*4+4 == 14+j*4 || 14+i*4+4 == 14+j*4+4) = true := by
        rw [List.any_eq_true]
        exact ⟨i, List.mem_range.mpr hi, by simp⟩
      unfold amendTag1C2
      rw [hx, Bool.or_true]
    have ht0c : ∀ i, i < c → ∀ d,
        (d = 1 ∨ d = 2 ∨ d = 3 ∨ d = 5 ∨ d = 6 ∨ d = 7) →
        amendTag0C2 c (14+i*4+d) = true := by
      intro i hi d hd
      have hx : (List.range c).any (fun j =>
          14+i*4+d == 14+j*4+1 || 14+i*4+d == 14+j*4+2 ||
          14+i*4+d == 14+j*4+3 || 14+i*4+d == 14+j*4+5 ||
          14+i*4+d == 14+j*4+6 || 14+i*4+d == 14+j*4+7) = true := by
        rw [List.any_eq_true]
        refine ⟨i, List.mem_range.mpr hi, ?_⟩
        rcases hd with rfl|rfl|rfl|rfl|rfl|rfl <;> simp
      unfold amendTag0C2
      rw [hx, Bool.or_true]
    refine ⟨(hmem 0 (by omega)).1 (by simp [amendTag1C2]),
            (hmem 1 (by omega)).1 (by simp [amendTag1C2]),
            (hmem 2 (by omega)).1 (by simp [amendTag1C2]),
            (hmem 3 (by omega)).2 (by simp [amendTag0C2]),
            (hmem 4 (by omega)).1 (by simp [amendTag1C2]),
            (hmem 5 (by omega)).2 (by simp [amendTag0C2]),
            (hmem 6 (by omega)).1 (by simp [amendTag1C2]),
            (hmem 7 (by omega)).2 (by simp [amendTag0C2]),
            (hmem 8 (by omega)).2 (by simp [amendTag0C2]),
            (hmem 9 (by omega)).2 (by simp [amendTag0C2]),
            (hmem 10 (by omega)).1 (by simp [amendTag1C2]),
            (hmem 11 (by omega)).2 (by simp [amendTag0C2]),
            (hmem 12 (by omega)).2 (by simp [amendTag0C2]),
            (hmem 13 (by omega)).2 (by simp [amendTag0C2]),
            ?_⟩
    intro i hi
    exact ⟨(hmem (14+i*4) (by omega)).1 (ht1a i hi),
           (hmem (14+i*4+1) (by omega)).2 (ht0c i hi 1 (by tauto)),
           (hmem (14+i*4+2) (by omega)).2 (ht0c i hi 2 (by tauto)),
           (hmem (14+i*4+3) (by omega)).2 (ht0c i hi 3 (by tauto)),
           (hmem (14+i*4+4) (by omega)).1 (ht1b i hi),
           (hmem (14+i*4+5) (by omega)).2 (ht0c i hi 5 (by tauto)),
           (hmem (14+i*4+6) (by omega)).2 (ht0c i hi 6 (by tauto)),
           (hmem (14+i*4+7) (by omega)).2 (ht0c i hi 7 (by tauto))⟩
  · intro hcan
    obtain ⟨g0, g1, g2, g3, g4, g5, g6, g7, g8, g9, g10, g11, g12, g13, gch⟩ := hcan
    unfold specValidC2amended
    rw [List.all_eq_true]
    intro k hkmem
    rw [List.mem_range] at hkmem
    rw [Bool.and_eq_true]
    constructor
    · rw [hor1]
      intro ht
      rcases (htag1 k).mp ht with rfl|rfl|rfl|rfl|rfl|rfl|⟨i, hi, hk4⟩
      · simpa [bit7set] using g0
      · simpa [bit7set] using g1
      · simpa [bit7set] using g2
      · simpa [bit7set] using g4
      · simpa [bit7set] using g6
      · simpa [bit7set] using g10
      · rcases hk4 with rfl|rfl
        · simpa [bit7set] using (gch i hi).1
        · simpa [bit7set] using (gch i hi).2.2.2.2.1
    · rw [hor0]
      intro ht
      rcases (htag0 k).mp ht with rfl|rfl|rfl|rfl|rfl|rfl|rfl|rfl|⟨i, hi, hk4⟩
      · simpa [bit7set] using g3
      · simpa [bit7set] using g5
      · simpa [bit7set] using g7
      · simpa [bit7set] using g8
      · simpa [bit7set] using g9
      · simpa [bit7set] using g11
      · simpa [bit7set] using g12
      · simpa [bit7set] using g13
      · rcases hk4 with rfl|rfl|rfl|rfl|rfl|rfl
        · simpa [bit7set] using (gch i hi).2.1
        · simpa [bit7set] using (gch i hi).2.2.1
        · simpa [bit7set] using (gch i hi).2.2.2.1
        · simpa [bit7set] using (gch i hi).2.2.2.2.2.1
        · simpa [bit7set] using (gch i hi).2.2.2.2.2.2.1
        · simpa [bit7set] using (gch i hi).2.2.2.2.2.2.2

end PyResistES

namespace PyResistES

/-- C2 counterexample: the claimed tag pattern disagrees with the source
validator in both directions.  `frameByte1low` (length 22, configured
`channelCount = 1`) satisfies the claim's pattern — byte 1 has bit 7 = 0 —
yet the validator rejects it (the source requires bit 7 = 1 on byte 1); and
`frameStride4` (length 30, `channelCount = 2`) violates the claim's pattern —
byte 1 has bit 7 = 1 and byte 26 = `14+8·1+4` has bit 7 = 0 — yet the
validator accepts it (its per-channel checks use stride 4, never reaching
byte 26). -/
theorem C2_counterexample :
    (frameByte1low.length = 14 + 8*1 ∧ specValidC2claim 1 frameByte1low = true ∧
      ismeasureframevalid 1 frameByte1low = false) ∧
    (frameStride4.length = 14 + 8*2 ∧ specValidC2claim 2 frameStride4 = false ∧
      ismeasureframevalid 2 frameStride4 = true) := by
  refine ⟨⟨?_, ?_, ?_⟩, ?_, ?_, ?_⟩ <;> decide

/-- C2 amended: for every byte sequence of the required length `14 + 8·c`,
the validator reports Valid iff bytes 0, 1, 2, 4, 6, 10 and the per-channel
offsets `14+4·i` and `14+4·i+4` (for `i < c`) have bit 7 = 1, and bytes
3, 5, 7, 8, 9, 11, 12, 13 and the per-channel offsets `14+4·i+j` for
`j ∈ {1,2,3,5,6,7}` have bit 7 = 0 (trailing bytes beyond offset
`17 + 4·(c-1) + 4` are not inspected); any single violation yields
Rejected. -/
theorem C2_validator_iff_amended (c : ℕ) (mf : List ℕ)
    (hlen : mf.length = 14 + 8*c) :
    ismeasureframevalid c mf = true ↔ specValidC2amended c mf = true :=
  (ismeasureframevalid_iff c mf hlen).trans (specValidC2amended_iff c mf).symm

/-- C2 witness: the equivalence applied to a concrete valid
`channelCount = 1` frame. -/
theorem C2_witness :
    goodframe1.length = 14 + 8*1 ∧
    (ismeasureframevalid 1 goodframe1 = true ↔
      specValidC2amended 1 goodframe1 = true) :=
  ⟨by decide, C2_validator_iff_amended 1 goodframe1 (by decide)⟩

end PyResistES
